import Mathlib

/-!
Verification development for the gles2 video output display
(src/src/gles2.c).  The relevant C functions are shallowly embedded as
executable Lean definitions: machine unsigned integers become Nat, byte
buffers become functions from byte offsets to byte values or lists of
bytes, GL and EGL side effects become explicit event traces, and GLSL
float arithmetic becomes exact rational arithmetic.
-/

/-! ## Data model (gles2.c lines 108-159) -/

/-- Rectangle of unsigned fields, in the field order of the C struct
rectangle_t (gles2.c lines 108-113). -/
structure rectangle_t where
  x : Nat
  y : Nat
  width : Nat
  height : Nat
deriving DecidableEq, Repr

/-- Display size carried by vout_display_cfg_t, the only part of the
configuration that compute_bounding_box reads (cfg->display.width and
cfg->display.height). -/
structure display_size_t where
  width : Nat
  height : Nat
deriving DecidableEq, Repr

/-- Configuration record handed to compute_bounding_box. -/
structure vout_display_cfg_t where
  display : display_size_t
deriving DecidableEq, Repr

/-! ## Geometry module: compute_bounding_box (gles2.c lines 162-192)

The C function compares the double ratios src_ratio = src.width/src.height
and dst_ratio = dst->width/dst->height and assigns double quotients to
unsigned fields, truncating toward zero.  The embedding models the double
arithmetic exactly over the rationals: with positive heights,
src_ratio > dst_ratio iff src.width * dst.height > dst.width * src.height,
and the truncated quotient dst->width / src_ratio equals
dst.width * src.height / src.width in Nat division.  The res parameter is
the content of the result buffer before the call; every branch of the C
function overwrites all four fields. -/
def compute_bounding_box (cfg : vout_display_cfg_t) (dst : rectangle_t)
    (res : rectangle_t) : rectangle_t :=
  let srcW := cfg.display.width
  let srcH := cfg.display.height
  if srcW * dst.height > dst.width * srcH then
    -- src_ratio > dst_ratio branch (lines 177-181)
    let h := dst.width * srcH / srcW
    { x := 0, y := (dst.height - h) / 2, width := dst.width, height := h }
  else if srcW * dst.height < dst.width * srcH then
    -- src_ratio < dst_ratio branch (lines 182-186)
    let w := dst.height * srcW / srcH
    { x := (dst.width - w) / 2, y := 0, width := w, height := dst.height }
  else
    -- equal ratios (lines 187-191)
    { x := 0, y := 0, width := dst.width, height := dst.height }

/-- Branch equation: the source is proportionally wider than the
destination (gles2.c lines 177-181). -/
theorem compute_bounding_box_wide (cfg : vout_display_cfg_t)
    (dst res : rectangle_t)
    (h : cfg.display.width * dst.height > dst.width * cfg.display.height) :
    compute_bounding_box cfg dst res =
      { x := 0,
        y := (dst.height - dst.width * cfg.display.height / cfg.display.width) / 2,
        width := dst.width,
        height := dst.width * cfg.display.height / cfg.display.width } := by
  simp only [compute_bounding_box]
  rw [if_pos h]

/-- Branch equation: the source is proportionally taller than the
destination (gles2.c lines 182-186). -/
theorem compute_bounding_box_tall (cfg : vout_display_cfg_t)
    (dst res : rectangle_t)
    (h1 : ¬ cfg.display.width * dst.height > dst.width * cfg.display.height)
    (h2 : cfg.display.width * dst.height < dst.width * cfg.display.height) :
    compute_bounding_box cfg dst res =
      { x := (dst.width - dst.height * cfg.display.width / cfg.display.height) / 2,
        y := 0,
        width := dst.height * cfg.display.width / cfg.display.height,
        height := dst.height } := by
  simp only [compute_bounding_box]
  rw [if_neg h1, if_pos h2]

/-- Branch equation: equal ratios (gles2.c lines 187-191). -/
theorem compute_bounding_box_equal (cfg : vout_display_cfg_t)
    (dst res : rectangle_t)
    (h1 : ¬ cfg.display.width * dst.height > dst.width * cfg.display.height)
    (h2 : ¬ cfg.display.width * dst.height < dst.width * cfg.display.height) :
    compute_bounding_box cfg dst res =
      { x := 0, y := 0, width := dst.width, height := dst.height } := by
  simp only [compute_bounding_box]
  rw [if_neg h1, if_neg h2]

/-- C1: for positive source and destination sizes the bounding box fits in
the destination, keeps the source aspect ratio up to integer rounding (the
cross multiplied products differ by less than the larger source side), and
is centered within one pixel on each axis; at source 1920x1080 and
destination 800x800 the result is x 0, y 175, width 800, height 450. -/
theorem C1_compute_bounding_box_fits_centered :
    (∀ (cfg : vout_display_cfg_t) (dst res : rectangle_t),
      0 < cfg.display.width → 0 < cfg.display.height →
      0 < dst.width → 0 < dst.height →
      let r := compute_bounding_box cfg dst res
      r.width ≤ dst.width ∧ r.height ≤ dst.height ∧
      r.width * cfg.display.height <
        r.height * cfg.display.width + max cfg.display.width cfg.display.height ∧
      r.height * cfg.display.width <
        r.width * cfg.display.height + max cfg.display.width cfg.display.height ∧
      r.x + r.width / 2 ≤ dst.width / 2 + 1 ∧
      dst.width / 2 ≤ r.x + r.width / 2 + 1 ∧
      r.y + r.height / 2 ≤ dst.height / 2 + 1 ∧
      dst.height / 2 ≤ r.y + r.height / 2 + 1) ∧
    compute_bounding_box ⟨⟨1920, 1080⟩⟩ ⟨0, 0, 800, 800⟩ ⟨0, 0, 0, 0⟩ =
      ⟨0, 175, 800, 450⟩ := by
  constructor
  · intro cfg dst res hsw hsh hdw hdh
    have hmaxl : cfg.display.width ≤ max cfg.display.width cfg.display.height :=
      le_max_left _ _
    have hmaxr : cfg.display.height ≤ max cfg.display.width cfg.display.height :=
      le_max_right _ _
    by_cases h1 : cfg.display.width * dst.height > dst.width * cfg.display.height
    · rw [compute_bounding_box_wide cfg dst res h1]
      dsimp only
      have hmod : dst.width * cfg.display.height % cfg.display.width <
          cfg.display.width := Nat.mod_lt _ hsw
      have hdm : dst.width * cfg.display.height % cfg.display.width +
          dst.width * cfg.display.height / cfg.display.width * cfg.display.width =
          dst.width * cfg.display.height := Nat.mod_add_div' _ _
      have hlt : dst.width * cfg.display.height / cfg.display.width < dst.height := by
        rw [Nat.div_lt_iff_lt_mul hsw]
        calc dst.width * cfg.display.height
            < cfg.display.width * dst.height := h1
          _ = dst.height * cfg.display.width := Nat.mul_comm _ _
      refine ⟨le_refl _, Nat.le_of_lt hlt, ?_, ?_, ?_, ?_, ?_, ?_⟩ <;> omega
    · by_cases h2 : cfg.display.width * dst.height < dst.width * cfg.display.height
      · rw [compute_bounding_box_tall cfg dst res h1 h2]
        dsimp only
        have hmod : dst.height * cfg.display.width % cfg.display.height <
            cfg.display.height := Nat.mod_lt _ hsh
        have hdm : dst.height * cfg.display.width % cfg.display.height +
            dst.height * cfg.display.width / cfg.display.height * cfg.display.height =
            dst.height * cfg.display.width := Nat.mod_add_div' _ _
        have hlt : dst.height * cfg.display.width / cfg.display.height < dst.width := by
          rw [Nat.div_lt_iff_lt_mul hsh]
          calc dst.height * cfg.display.width
              = cfg.display.width * dst.height := Nat.mul_comm _ _
            _ < dst.width * cfg.display.height := h2
        refine ⟨Nat.le_of_lt hlt, le_refl _, ?_, ?_, ?_, ?_, ?_, ?_⟩ <;> omega
      · rw [compute_bounding_box_equal cfg dst res h1 h2]
        dsimp only
        have heq : dst.height * cfg.display.width = dst.width * cfg.display.height := by
          have hc : cfg.display.width * dst.height = dst.height * cfg.display.width :=
            Nat.mul_comm _ _
          omega
        refine ⟨le_refl _, le_refl _, ?_, ?_, ?_, ?_, ?_, ?_⟩ <;> omega
  · rfl

/-- Closed instance of C1 at the concrete sizes of the claim. -/
theorem C1_witness :
    (0 < (1920 : Nat) ∧ 0 < (1080 : Nat) ∧ 0 < (800 : Nat)) ∧
    (let r := compute_bounding_box ⟨⟨1920, 1080⟩⟩ ⟨0, 0, 800, 800⟩ ⟨0, 0, 0, 0⟩
     r.width ≤ 800 ∧ r.height ≤ 800 ∧
     r.width * 1080 < r.height * 1920 + max 1920 1080 ∧
     r.height * 1920 < r.width * 1080 + max 1920 1080 ∧
     r.x + r.width / 2 ≤ 800 / 2 + 1 ∧
     800 / 2 ≤ r.x + r.width / 2 + 1 ∧
     r.y + r.height / 2 ≤ 800 / 2 + 1 ∧
     800 / 2 ≤ r.y + r.height / 2 + 1) := by
  refine ⟨by decide, ?_⟩
  exact C1_compute_bounding_box_fits_centered.1 ⟨⟨1920, 1080⟩⟩
    ⟨0, 0, 800, 800⟩ ⟨0, 0, 0, 0⟩ (by decide) (by decide) (by decide) (by decide)

/-- C9: compute_bounding_box is pure: its output depends only on the
configuration and the destination rectangle, never on the previous content
of the result buffer, so two successive calls with identical inputs yield
identical outputs. -/
theorem C9_compute_bounding_box_pure
    (cfg : vout_display_cfg_t) (dst : rectangle_t) (res1 res2 : rectangle_t) :
    compute_bounding_box cfg dst res1 = compute_bounding_box cfg dst res2 := by
  rfl

/-! ## Picture model (vlc_picture / vlc_es structures as used by gles2.c)

A plane is a byte buffer with a pitch: p_pixels gives the byte stored at
each byte offset from the start of the plane.  Fields keep the VLC names
read by gles2.c: i_pitch is the full row size in bytes, i_pixel_pitch the
bytes per pixel, i_visible_pitch the visible row size in bytes,
i_visible_lines the visible row count. -/
structure plane_t where
  p_pixels : Nat → Nat
  i_pitch : Nat
  i_pixel_pitch : Nat
  i_visible_pitch : Nat
  i_visible_lines : Nat

/-- Video format fields of vlc_es read by gles2.c. -/
structure video_format_t where
  i_chroma : Nat
  i_width : Nat
  i_height : Nat
  i_visible_width : Nat
  i_visible_height : Nat

/-- Picture buffer: declared format, plane count i_planes and planes p[i]. -/
structure picture_t where
  format : video_format_t
  i_planes : Nat
  p : Nat → plane_t

/-- Per-plane entry of a vlc_chroma_description_t: the rational width and
height scaling factors c->p[i].w and c->p[i].h. -/
structure chroma_plane_desc where
  wnum : Nat
  wden : Nat
  hnum : Nat
  hden : Nat
deriving DecidableEq, Repr

/-- Chroma description of VLC_CODEC_I420, the one format this display
accepts: full-resolution luma plane and half-resolution chroma planes, as
returned by vlc_fourcc_GetChromaDescription for I420. -/
def I420_chroma_desc : Nat → chroma_plane_desc :=
  fun i => if i = 0 then ⟨1, 1, 1, 1⟩ else ⟨1, 2, 1, 2⟩

/-- Fourcc code of VLC_CODEC_I420, the four bytes I, 4, 2, 0 packed
little endian. -/
def VLC_CODEC_I420 : Nat := 0x30323449

/-! ## GL model for the texture upload paths (gles2.c lines 676-753) -/

/-- Texture handle plus cached sampler uniform location (gles2.c
lines 115-118). -/
structure gl_texture_t where
  id : Nat
  loc : Int
deriving DecidableEq, Repr

/-- The pixel-store state of the GL context that the upload paths touch:
GL_UNPACK_ROW_LENGTH, which update_textures_simple sets and resets, and
GL_UNPACK_ALIGNMENT, which gles2.c never touches and which therefore
witnesses that the rest of the pixel-store state is left alone. -/
structure GLPixelState where
  unpackRowLength : Nat
  unpackAlignment : Nat
deriving DecidableEq, Repr

/-- Observable GL calls made by the two texture upload paths.  A
texImage2D event records the width, the height and the texel bytes the GL
client-memory read produces, so equality of events is equality of the
uploaded pixel content. -/
inductive TexEvent where
  | activeTexture (unit : Nat)
  | bindTexture (id : Nat)
  | pixelStorei (rowLength : Nat)
  | texImage2D (width height : Nat) (data : List Nat)
  | uniform1i (loc : Int) (value : Nat)
deriving DecidableEq, Repr

/-- Client-memory read performed by glTexImage2D for single-channel 8-bit
data: row r starts rowStride bytes after row r-1, where rowStride is
GL_UNPACK_ROW_LENGTH when that is nonzero and the image width otherwise. -/
def texImage2DRead (src : Nat → Nat) (rowLength width height : Nat) : List Nat :=
  let rowStride := if rowLength = 0 then width else rowLength
  (List.range height).flatMap fun r =>
    (List.range width).map fun c => src (r * rowStride + c)

/-- Row-by-row copy loop of update_textures_complex (gles2.c lines
716-720): rows memcpy calls of line bytes each, the source pointer
advancing by i_pitch / i_pixel_pitch bytes after every row, the
destination pointer by line bytes.  packPlane src line stride rows is the
content of the temporary buffer after the loop. -/
def packPlane (src : Nat → Nat) (line stride : Nat) : Nat → List Nat
  | 0 => []
  | r + 1 => packPlane src line stride r ++
      (List.range line).map fun j => src (r * stride + j)

/-- The packed buffer has exactly line bytes per copied row. -/
theorem packPlane_length (src : Nat → Nat) (line stride rows : Nat) :
    (packPlane src line stride rows).length = rows * line := by
  induction rows with
  | zero => simp [packPlane]
  | succ n ih =>
    simp [packPlane, ih, Nat.succ_mul]

/-- Byte c of packed row r is byte offset r * stride + c of the source. -/
theorem packPlane_getD (src : Nat → Nat) (line stride rows r c : Nat)
    (hr : r < rows) (hc : c < line) :
    (packPlane src line stride rows).getD (r * line + c) 0 =
      src (r * stride + c) := by
  induction rows with
  | zero => omega
  | succ n ih =>
    by_cases hrn : r < n
    · rw [packPlane]
      rw [List.getD_append]
      · exact ih hrn
      · rw [packPlane_length]
        calc r * line + c < r * line + line := by omega
          _ = (r + 1) * line := by ring
          _ ≤ n * line := Nat.mul_le_mul_right _ (by omega)
    · have hrn' : r = n := by omega
      subst hrn'
      rw [packPlane]
      rw [List.getD_append_right]
      · rw [packPlane_length]
        have hidx : r * line + c - r * line = c := by omega
        rw [hidx]
        rw [List.getD_eq_getElem _ _ (by simpa using hc)]
        simp
      · rw [packPlane_length]
        omega

/-- The GL-side state of the display that the upload paths read: the three
planar textures (gles2.c opengl_es2_t.tex) and the unpack-row capability
flag. -/
structure opengl_es2_t where
  tex : Nat → gl_texture_t
  has_unpack_row : Bool

/-- Direct-stride upload path update_textures_simple (gles2.c lines
731-745).  For each plane i below p->i_planes: glActiveTexture unit i,
glBindTexture of tex[i], glPixelStorei GL_UNPACK_ROW_LENGTH to the pitch
in pixels i_pitch / i_pixel_pitch, glTexImage2D of the visible
i_visible_pitch x i_visible_lines region straight from p_pixels, and
glUniform1i of the sampler location to i; afterwards GL_UNPACK_ROW_LENGTH
is reset to 0. -/
def update_textures_simple (gl : opengl_es2_t) (p : picture_t)
    (s : GLPixelState) : GLPixelState × List TexEvent :=
  let step := fun (acc : GLPixelState × List TexEvent) (i : Nat) =>
    let pl := p.p i
    let rl := pl.i_pitch / pl.i_pixel_pitch
    let s1 : GLPixelState := { acc.1 with unpackRowLength := rl }
    (s1, acc.2 ++
      [.activeTexture i,
       .bindTexture (gl.tex i).id,
       .pixelStorei rl,
       .texImage2D pl.i_visible_pitch pl.i_visible_lines
         (texImage2DRead pl.p_pixels s1.unpackRowLength
           pl.i_visible_pitch pl.i_visible_lines),
       .uniform1i (gl.tex i).loc i])
  let r := (List.range p.i_planes).foldl step (s, [])
  ({ r.1 with unpackRowLength := 0 }, r.2 ++ [.pixelStorei 0])

/-- Compacting upload path update_textures_complex (gles2.c lines
697-729).  For each plane i below p->i_planes it derives the packed row
size line and row count rows from the display format and the chroma
description, fills a temporary buffer with the copy loop modelled by
packPlane, and uploads that buffer as a line x rows single-channel image;
it never touches GL_UNPACK_ROW_LENGTH.  desc stands for the
vlc_fourcc_GetChromaDescription lookup of fmt.i_chroma. -/
def update_textures_complex (fmt : video_format_t)
    (desc : Nat → chroma_plane_desc) (gl : opengl_es2_t) (p : picture_t)
    (s : GLPixelState) : GLPixelState × List TexEvent :=
  let step := fun (acc : GLPixelState × List TexEvent) (i : Nat) =>
    let pl := p.p i
    let rows := fmt.i_visible_height * (desc i).hnum / (desc i).hden
    let line := fmt.i_visible_width * (desc i).wnum / (desc i).wden
    let buf := packPlane pl.p_pixels line (pl.i_pitch / pl.i_pixel_pitch) rows
    (acc.1, acc.2 ++
      [.activeTexture i,
       .bindTexture (gl.tex i).id,
       .texImage2D line rows
         (texImage2DRead (fun k => buf.getD k 0) acc.1.unpackRowLength
           line rows),
       .uniform1i (gl.tex i).loc i])
  (List.range p.i_planes).foldl step (s, [])

/-- Dispatcher update_textures (gles2.c lines 747-753): the direct-stride
path when GL_EXT_unpack_subimage was detected, the compacting path
otherwise. -/
def update_textures (fmt : video_format_t) (desc : Nat → chroma_plane_desc)
    (gl : opengl_es2_t) (p : picture_t) (s : GLPixelState) :
    GLPixelState × List TexEvent :=
  if gl.has_unpack_row then update_textures_simple gl p s
  else update_textures_complex fmt desc gl p s

/-- Texture uploads of a trace: the width, height and pixel content of
every texImage2D call, in order. -/
def texUploads (evs : List TexEvent) : List (Nat × Nat × List Nat) :=
  evs.filterMap fun ev =>
    match ev with
    | .texImage2D w h d => some (w, h, d)
    | _ => none

/-- Per-plane equivalence of the two read strategies: reading the visible
line x rows region with a row stride of stridePx bytes gives the same
bytes as packing the region tightly with the copy loop and reading the
packed buffer at the default tight stride, provided the stride covers a
visible row. -/
theorem strided_read_eq_packed_read (src : Nat → Nat)
    (stridePx line rows : Nat) (hle : line ≤ stridePx) :
    texImage2DRead src stridePx line rows =
      texImage2DRead
        (fun k => (packPlane src line stridePx rows).getD k 0) 0 line rows := by
  by_cases h0 : stridePx = 0
  · have hline : line = 0 := by omega
    subst hline
    simp [texImage2DRead]
  · simp only [texImage2DRead, if_neg h0, reduceIte]
    refine List.flatMap_congr ?_
    intro r hr
    rw [List.mem_range] at hr
    refine List.map_congr_left ?_
    intro c hc
    rw [List.mem_range] at hc
    exact (packPlane_getD src line stridePx rows r c hr hc).symm

/-- C2: on a 3-plane 8-bit picture whose plane layout matches the I420
chroma description of the display format (visible pitch and visible lines
equal to the packed line size and row count of each plane, the row pitch
in pixels covering a visible row), the direct-stride path and the
compacting path upload bit-identical pixel content: the sequences of
texImage2D calls agree in width, height and every uploaded byte. -/
theorem C2_upload_paths_equivalent (fmt : video_format_t)
    (gl : opengl_es2_t) (p : picture_t) (s : GLPixelState)
    (hplanes : p.i_planes = 3)
    (hrl : s.unpackRowLength = 0)
    (hvp : ∀ i, i < 3 → (p.p i).i_visible_pitch =
      fmt.i_visible_width * (I420_chroma_desc i).wnum / (I420_chroma_desc i).wden)
    (hvl : ∀ i, i < 3 → (p.p i).i_visible_lines =
      fmt.i_visible_height * (I420_chroma_desc i).hnum / (I420_chroma_desc i).hden)
    (hpitch : ∀ i, i < 3 → (p.p i).i_visible_pitch ≤
      (p.p i).i_pitch / (p.p i).i_pixel_pitch) :
    texUploads (update_textures_simple gl p s).2 =
      texUploads (update_textures_complex fmt I420_chroma_desc gl p s).2 := by
  have h0vp := hvp 0 (by omega)
  have h1vp := hvp 1 (by omega)
  have h2vp := hvp 2 (by omega)
  have h0vl := hvl 0 (by omega)
  have h1vl := hvl 1 (by omega)
  have h2vl := hvl 2 (by omega)
  have h0p := hpitch 0 (by omega)
  have h1p := hpitch 1 (by omega)
  have h2p := hpitch 2 (by omega)
  have hr3 : List.range 3 = [0, 1, 2] := rfl
  simp only [update_textures_simple, update_textures_complex, hplanes, hr3,
    List.foldl_cons, List.foldl_nil, texUploads, List.filterMap_append,
    List.filterMap_cons, List.filterMap_nil, List.append_nil,
    List.nil_append, hrl]
  rw [h0vp, h1vp, h2vp, h0vl, h1vl, h2vl]
  rw [strided_read_eq_packed_read (p.p 0).p_pixels _ _ _ (h0vp ▸ h0p),
    strided_read_eq_packed_read (p.p 1).p_pixels _ _ _ (h1vp ▸ h1p),
    strided_read_eq_packed_read (p.p 2).p_pixels _ _ _ (h2vp ▸ h2p)]

/-- Closed instance of C2: a synthetic 2x2 visible picture whose luma
plane has pitch 3 exceeding the visible width 2, with distinct byte values
at every offset; both paths upload the same bytes. -/
theorem C2_witness :
    (let fmt : video_format_t := ⟨VLC_CODEC_I420, 2, 2, 2, 2⟩
     let pl0 : plane_t := ⟨fun k => 10 + k, 3, 1, 2, 2⟩
     let plc : plane_t := ⟨fun k => 100 + k, 2, 1, 1, 1⟩
     let p : picture_t := ⟨fmt, 3, fun i => if i = 0 then pl0 else plc⟩
     let gl : opengl_es2_t := ⟨fun i => ⟨i + 1, Int.ofNat i⟩, true⟩
     texUploads (update_textures_simple gl p ⟨0, 4⟩).2 =
       texUploads (update_textures_complex fmt I420_chroma_desc gl p ⟨0, 4⟩).2) := by
  exact C2_upload_paths_equivalent ⟨VLC_CODEC_I420, 2, 2, 2, 2⟩
    ⟨fun i => ⟨i + 1, Int.ofNat i⟩, true⟩
    ⟨⟨VLC_CODEC_I420, 2, 2, 2, 2⟩, 3,
      fun i => if i = 0 then ⟨fun k => 10 + k, 3, 1, 2, 2⟩
        else ⟨fun k => 100 + k, 2, 1, 1, 1⟩⟩
    ⟨0, 4⟩ rfl rfl
    (by decide) (by decide) (by decide)

/-- C6 counterexample: a plane with 2-byte pixels (i_pixel_pitch 2) and a
byte pitch of 4.  The copy loop advances the source by
i_pitch / i_pixel_pitch = 2 bytes per row, not by the byte pitch 4 the
claim states, so byte 0 of packed row 1 is source byte 2, not byte 4 where
visible row 1 starts: the packed buffer does not hold the visible region
bytes for a pixel size above 1. -/
theorem C6_counterexample :
    (let pl : plane_t := ⟨fun k => k, 4, 2, 4, 2⟩
     let line := 2
     (packPlane pl.p_pixels line (pl.i_pitch / pl.i_pixel_pitch) 2).getD
        (1 * line + 0) 0 ≠ pl.p_pixels (1 * pl.i_pitch + 0)) := by
  decide

/-- C6 amended: the temporary buffer of the compacting path holds exactly
rows x line bytes, filled row by row with the source advancing
i_pitch / i_pixel_pitch bytes per row; when the pixel size is one byte
this advance is the byte pitch, and the packed buffer then holds exactly
the bytes of the visible region. -/
theorem C6_packPlane_visible_region (pl : plane_t) (line rows : Nat)
    (hpp : pl.i_pixel_pitch = 1) :
    (packPlane pl.p_pixels line (pl.i_pitch / pl.i_pixel_pitch) rows).length =
      rows * line ∧
    ∀ r c, r < rows → c < line →
      (packPlane pl.p_pixels line (pl.i_pitch / pl.i_pixel_pitch) rows).getD
          (r * line + c) 0 = pl.p_pixels (r * pl.i_pitch + c) := by
  constructor
  · exact packPlane_length _ _ _ _
  · intro r c hr hc
    have hstride : pl.i_pitch / pl.i_pixel_pitch = pl.i_pitch := by
      rw [hpp, Nat.div_one]
    rw [hstride]
    exact packPlane_getD _ _ _ _ _ _ hr hc

/-- Closed instance of C6 amended at a 1-byte-pixel plane with pitch 3 and
a 2x2 visible region. -/
theorem C6_witness :
    ((⟨fun k => 10 + k, 3, 1, 2, 2⟩ : plane_t).i_pixel_pitch = 1) ∧
    (let pl : plane_t := ⟨fun k => 10 + k, 3, 1, 2, 2⟩
     (packPlane pl.p_pixels 2 (pl.i_pitch / pl.i_pixel_pitch) 2).length =
        2 * 2 ∧
     ∀ r c, r < 2 → c < 2 →
       (packPlane pl.p_pixels 2 (pl.i_pitch / pl.i_pixel_pitch) 2).getD
          (r * 2 + c) 0 = pl.p_pixels (r * pl.i_pitch + c)) := by
  exact ⟨rfl, C6_packPlane_visible_region ⟨fun k => 10 + k, 3, 1, 2, 2⟩ 2 2 rfl⟩

/-- C7: on a 3-plane picture the direct-stride path issues, for each plane
i in order 0, 1, 2: active texture unit i, bind of texture i, row length
set to the pitch in pixels, an upload of the visible
i_visible_pitch x i_visible_lines region read from the plane bytes at that
row stride, and the sampler uniform of plane i set to i; it ends by
resetting GL_UNPACK_ROW_LENGTH to 0, so the final pixel-store state is the
incoming one with row length 0 and it is unchanged whenever the incoming
row length was already the default 0. -/
theorem C7_update_textures_simple_effects (gl : opengl_es2_t)
    (p : picture_t) (s : GLPixelState) (hplanes : p.i_planes = 3) :
    (update_textures_simple gl p s).1 = { s with unpackRowLength := 0 } ∧
    (s.unpackRowLength = 0 → (update_textures_simple gl p s).1 = s) ∧
    (update_textures_simple gl p s).2 =
      [.activeTexture 0, .bindTexture (gl.tex 0).id,
       .pixelStorei ((p.p 0).i_pitch / (p.p 0).i_pixel_pitch),
       .texImage2D (p.p 0).i_visible_pitch (p.p 0).i_visible_lines
         (texImage2DRead (p.p 0).p_pixels
           ((p.p 0).i_pitch / (p.p 0).i_pixel_pitch)
           (p.p 0).i_visible_pitch (p.p 0).i_visible_lines),
       .uniform1i (gl.tex 0).loc 0,
       .activeTexture 1, .bindTexture (gl.tex 1).id,
       .pixelStorei ((p.p 1).i_pitch / (p.p 1).i_pixel_pitch),
       .texImage2D (p.p 1).i_visible_pitch (p.p 1).i_visible_lines
         (texImage2DRead (p.p 1).p_pixels
           ((p.p 1).i_pitch / (p.p 1).i_pixel_pitch)
           (p.p 1).i_visible_pitch (p.p 1).i_visible_lines),
       .uniform1i (gl.tex 1).loc 1,
       .activeTexture 2, .bindTexture (gl.tex 2).id,
       .pixelStorei ((p.p 2).i_pitch / (p.p 2).i_pixel_pitch),
       .texImage2D (p.p 2).i_visible_pitch (p.p 2).i_visible_lines
         (texImage2DRead (p.p 2).p_pixels
           ((p.p 2).i_pitch / (p.p 2).i_pixel_pitch)
           (p.p 2).i_visible_pitch (p.p 2).i_visible_lines),
       .uniform1i (gl.tex 2).loc 2,
       .pixelStorei 0] := by
  have hr3 : List.range 3 = [0, 1, 2] := rfl
  refine ⟨?_, ?_, ?_⟩
  · simp only [update_textures_simple, hplanes, hr3, List.foldl_cons,
      List.foldl_nil]
  · intro h0
    simp only [update_textures_simple, hplanes, hr3, List.foldl_cons,
      List.foldl_nil]
    cases s
    simp only at h0
    simp [h0]
  · simp only [update_textures_simple, hplanes, hr3, List.foldl_cons,
      List.foldl_nil, List.nil_append, List.append_assoc, List.cons_append,
      List.singleton_append]

/-- Closed instance of C7 at a concrete 3-plane picture with pitch 3 on
the luma plane and pitch 2 on the chroma planes. -/
theorem C7_witness :
    (let pl0 : plane_t := ⟨fun k => 10 + k, 3, 1, 2, 2⟩
     let plc : plane_t := ⟨fun k => 100 + k, 2, 1, 1, 1⟩
     let p : picture_t := ⟨⟨VLC_CODEC_I420, 2, 2, 2, 2⟩, 3,
       fun i => if i = 0 then pl0 else plc⟩
     let gl : opengl_es2_t := ⟨fun i => ⟨i + 1, Int.ofNat i⟩, true⟩
     p.i_planes = 3 ∧
     (update_textures_simple gl p ⟨0, 4⟩).1 = ⟨0, 4⟩ ∧
     (update_textures_simple gl p ⟨0, 4⟩).2 =
       [.activeTexture 0, .bindTexture 1, .pixelStorei 3,
        .texImage2D 2 2 [10, 11, 13, 14], .uniform1i 0 0,
        .activeTexture 1, .bindTexture 2, .pixelStorei 2,
        .texImage2D 1 1 [100], .uniform1i 1 1,
        .activeTexture 2, .bindTexture 3, .pixelStorei 2,
        .texImage2D 1 1 [100], .uniform1i 2 2,
        .pixelStorei 0]) := by
  refine ⟨rfl, ?_, ?_⟩
  · exact (C7_update_textures_simple_effects _ _ ⟨0, 4⟩ rfl).2.1 rfl
  · have h := (C7_update_textures_simple_effects
      ⟨fun i => ⟨i + 1, Int.ofNat i⟩, true⟩
      ⟨⟨VLC_CODEC_I420, 2, 2, 2, 2⟩, 3,
        fun i => if i = 0 then ⟨fun k => 10 + k, 3, 1, 2, 2⟩
          else ⟨fun k => 100 + k, 2, 1, 1, 1⟩⟩
      ⟨0, 4⟩ rfl).2.2
    rw [h]
    decide

/-! ## Display path model: do_display (gles2.c lines 1055-1077) and the
event drain x11_backend_handle_events (gles2.c lines 218-233) -/

/-- Display-side state read and written by the display path: the current
configuration, the X11 window rectangle, the queue of pending
ConfigureNotify width/height pairs on the X connection, and the computed
viewport. -/
structure vout_display_sys_state where
  cfg : vout_display_cfg_t
  x11rect : rectangle_t
  pending : List (Nat × Nat)
  viewport : rectangle_t
deriving DecidableEq, Repr

/-- Event drain x11_backend_handle_events: every pending ConfigureNotify
event updates the window rectangle width and height and recomputes the
viewport with compute_bounding_box; afterwards the queue is empty. -/
def x11_backend_handle_events (sys : vout_display_sys_state) :
    vout_display_sys_state :=
  let final := sys.pending.foldl
    (fun (st : rectangle_t × rectangle_t) ev =>
      let rect := { st.1 with width := ev.1, height := ev.2 }
      (rect, compute_bounding_box sys.cfg rect st.2))
    (sys.x11rect, sys.viewport)
  { sys with x11rect := final.1, viewport := final.2, pending := [] }

/-- Observable actions of one do_display call.  diag is the unsupported
picture format message on stderr, drawDeint and drawScale the
glDrawElements calls of the two passes, swapBuffers the eglSwapBuffers
call, releasePicture the picture_Release call and deleteSubpicture the
subpicture_Delete call. -/
inductive DisplayEvent where
  | diag
  | handleEvents
  | drawDeint
  | drawScale
  | swapBuffers
  | releasePicture
  | deleteSubpicture
deriving DecidableEq, Repr

/-- Display operation do_display: a picture whose chroma is not
VLC_CODEC_I420 or whose plane count is not 3 only produces the diagnostic
and leaves the state alone; otherwise the pending window events are
drained, the two render passes run, the buffers are swapped, the picture
is released and a present subpicture is deleted. -/
def do_display (sys : vout_display_sys_state) (p : picture_t) (sp : Bool) :
    vout_display_sys_state × List DisplayEvent :=
  if p.format.i_chroma ≠ VLC_CODEC_I420 ∨ p.i_planes ≠ 3 then
    (sys, [.diag])
  else
    (x11_backend_handle_events sys,
     [.handleEvents, .drawDeint, .drawScale, .swapBuffers, .releasePicture] ++
       (if sp then [.deleteSubpicture] else []))

/-- C3: a picture with the wrong chroma or a plane count other than 3 is
rejected: the call emits exactly the diagnostic, issues no draw call and
no buffer swap, and leaves the display state unchanged, so the pipeline
stays usable for later frames. -/
theorem C3_do_display_rejects_bad_format (sys : vout_display_sys_state)
    (p : picture_t) (sp : Bool)
    (hrej : p.format.i_chroma ≠ VLC_CODEC_I420 ∨ p.i_planes ≠ 3) :
    (do_display sys p sp).1 = sys ∧
    (do_display sys p sp).2 = [.diag] ∧
    DisplayEvent.diag ∈ (do_display sys p sp).2 ∧
    DisplayEvent.drawDeint ∉ (do_display sys p sp).2 ∧
    DisplayEvent.drawScale ∉ (do_display sys p sp).2 ∧
    DisplayEvent.swapBuffers ∉ (do_display sys p sp).2 := by
  unfold do_display
  rw [if_pos hrej]
  refine ⟨rfl, rfl, ?_, ?_, ?_, ?_⟩ <;> simp

/-- Closed instance of C3 at a concrete picture of chroma 0. -/
theorem C3_witness :
    (let sys : vout_display_sys_state :=
       ⟨⟨⟨4, 3⟩⟩, ⟨0, 0, 100, 100⟩, [(50, 50)], ⟨0, 0, 100, 75⟩⟩
     let p : picture_t := ⟨⟨0, 2, 2, 2, 2⟩, 3, fun _ => ⟨fun k => k, 2, 1, 2, 2⟩⟩
     ((0 : Nat) ≠ VLC_CODEC_I420 ∨ (3 : Nat) ≠ 3) ∧
     ((do_display sys p true).1 = sys ∧
      (do_display sys p true).2 = [.diag] ∧
      DisplayEvent.diag ∈ (do_display sys p true).2 ∧
      DisplayEvent.drawDeint ∉ (do_display sys p true).2 ∧
      DisplayEvent.drawScale ∉ (do_display sys p true).2 ∧
      DisplayEvent.swapBuffers ∉ (do_display sys p true).2)) := by
  refine ⟨Or.inl (by decide), ?_⟩
  exact C3_do_display_rejects_bad_format
    ⟨⟨⟨4, 3⟩⟩, ⟨0, 0, 100, 100⟩, [(50, 50)], ⟨0, 0, 100, 75⟩⟩
    ⟨⟨0, 2, 2, 2, 2⟩, 3, fun _ => ⟨fun k => k, 2, 1, 2, 2⟩⟩ true
    (Or.inl (by decide))

/-- C10: the picture release, the subpicture deletion and the window event
drain happen only on the accepted-frame path: a rejected frame returns
without releasing the picture, without deleting the subpicture and without
draining events, while an accepted frame performs the release and the
drain. -/
theorem C10_do_display_release_only_on_accept (sys : vout_display_sys_state)
    (p : picture_t) (sp : Bool) :
    ((p.format.i_chroma ≠ VLC_CODEC_I420 ∨ p.i_planes ≠ 3) →
      DisplayEvent.releasePicture ∉ (do_display sys p sp).2 ∧
      DisplayEvent.deleteSubpicture ∉ (do_display sys p sp).2 ∧
      DisplayEvent.handleEvents ∉ (do_display sys p sp).2) ∧
    (p.format.i_chroma = VLC_CODEC_I420 ∧ p.i_planes = 3 →
      DisplayEvent.releasePicture ∈ (do_display sys p sp).2 ∧
      DisplayEvent.handleEvents ∈ (do_display sys p sp).2) := by
  constructor
  · intro hrej
    unfold do_display
    rw [if_pos hrej]
    refine ⟨?_, ?_, ?_⟩ <;> simp
  · intro hacc
    have hnrej : ¬ (p.format.i_chroma ≠ VLC_CODEC_I420 ∨ p.i_planes ≠ 3) := by
      push_neg
      exact hacc
    unfold do_display
    rw [if_neg hnrej]
    constructor
    · simp
    · simp

/-! ## Resource context teardown: egl_backend_destroy (gles2.c
lines 367-389) -/

/-- EGL backend handles in the field order of the C struct egl_backend_t
(gles2.c lines 140-144); 0 stands for the null handle EGL_NO_DISPLAY,
EGL_NO_SURFACE or EGL_NO_CONTEXT. -/
structure egl_backend_t where
  display : Nat
  surface : Nat
  context : Nat
deriving DecidableEq, Repr

/-- Observable calls of egl_backend_destroy: eglDestroyContext,
eglDestroySurface, eglTerminate and the Tegra handle cleanup quirk run
after the teardown. -/
inductive EglEvent where
  | destroyContext (display context : Nat)
  | destroySurface (display surface : Nat)
  | terminate (display : Nat)
  | closeForgottenHandles
deriving DecidableEq, Repr

/-- Teardown egl_backend_destroy: each member is destroyed only when it is
non-null, in source order context first (lines 372-375), surface second
(lines 376-379), display last (lines 380-383), followed by the Tegra
quirk (line 388). -/
def egl_backend_destroy (e : egl_backend_t) : List EglEvent :=
  (if e.context ≠ 0 then [.destroyContext e.display e.context] else []) ++
  ((if e.surface ≠ 0 then [.destroySurface e.display e.surface] else []) ++
   ((if e.display ≠ 0 then [.terminate e.display] else []) ++
    [.closeForgottenHandles]))

/-- C8 counterexample: with all three members non-null the teardown calls
eglDestroyContext before eglDestroySurface, so the first destroyed object
is the context, not the surface the claim names first. -/
theorem C8_counterexample :
    egl_backend_destroy ⟨1, 2, 3⟩ =
      [.destroyContext 1 3, .destroySurface 1 2, .terminate 1,
       .closeForgottenHandles] ∧
    (egl_backend_destroy ⟨1, 2, 3⟩).head? ≠
      some (.destroySurface 1 2) := by
  decide

/-- C8 amended: teardown destroys the context first, then the surface,
then the display, in that order, each step emitted exactly when the member
is non-null, so every combination of already-null members completes
without destroying a null object. -/
theorem C8_egl_backend_destroy_order (e : egl_backend_t) :
    List.Sublist (egl_backend_destroy e)
      [.destroyContext e.display e.context,
       .destroySurface e.display e.surface,
       .terminate e.display,
       .closeForgottenHandles] ∧
    (EglEvent.destroyContext e.display e.context ∈ egl_backend_destroy e ↔
      e.context ≠ 0) ∧
    (EglEvent.destroySurface e.display e.surface ∈ egl_backend_destroy e ↔
      e.surface ≠ 0) ∧
    (EglEvent.terminate e.display ∈ egl_backend_destroy e ↔
      e.display ≠ 0) ∧
    EglEvent.closeForgottenHandles ∈ egl_backend_destroy e := by
  refine ⟨?_, ?_, ?_, ?_, ?_⟩
  · have hA : List.Sublist
        (if e.context ≠ 0 then
          [EglEvent.destroyContext e.display e.context] else [])
        [EglEvent.destroyContext e.display e.context] := by
      split
      · exact List.Sublist.refl _
      · exact List.nil_sublist _
    have hB : List.Sublist
        (if e.surface ≠ 0 then
          [EglEvent.destroySurface e.display e.surface] else [])
        [EglEvent.destroySurface e.display e.surface] := by
      split
      · exact List.Sublist.refl _
      · exact List.nil_sublist _
    have hC : List.Sublist
        (if e.display ≠ 0 then
          [EglEvent.terminate e.display] else [])
        [EglEvent.terminate e.display] := by
      split
      · exact List.Sublist.refl _
      · exact List.nil_sublist _
    exact hA.append (hB.append (hC.append (List.Sublist.refl _)))
  · unfold egl_backend_destroy
    by_cases hc : e.context = 0 <;> simp [hc]
  · unfold egl_backend_destroy
    by_cases hs : e.surface = 0 <;> simp [hs]
  · unfold egl_backend_destroy
    by_cases hd : e.display = 0 <;> simp [hd]
  · unfold egl_backend_destroy
    simp

/-! ## Shader program module (gles2.c lines 475-674)

The GL object allocator is modelled as a world of live object ids: a
create call hands out the next id and adds it to the live list, a delete
call removes the id.  The driver outcomes that the C code branches on
(create, compile, attach, link results) are inputs of the model. -/

/-- Shader record in the field order of the C struct gl_shader_t
(gles2.c lines 120-126). -/
structure gl_shader_t where
  program : Nat
  vertex : Nat
  fragment : Nat
  position_loc : Int
  texcoord_loc : Int
deriving DecidableEq, Repr

/-- World of GL objects: the next fresh id (kept positive so a created
object id is never the 0 failure value) and the ids currently allocated
and not yet deleted. -/
structure GLObjectWorld where
  nextId : Nat
  live : List Nat
deriving DecidableEq, Repr

/-- Object creation (glCreateShader or glCreateProgram succeeding). -/
def glAlloc (w : GLObjectWorld) : Nat × GLObjectWorld :=
  (w.nextId, ⟨w.nextId + 1, w.live ++ [w.nextId]⟩)

/-- Object deletion (glDeleteShader or glDeleteProgram). -/
def glDeleteObject (w : GLObjectWorld) (id : Nat) : GLObjectWorld :=
  ⟨w.nextId, w.live.filter (fun x => x ≠ id)⟩

/-- Driver outcomes that shader_init branches on: whether glCreateProgram
returns an object, whether the two compiles succeed, whether glGetError
reports an error after each glAttachShader, and the GL_LINK_STATUS of
glLinkProgram. -/
structure shader_env_t where
  createProgramOk : Bool
  vertexCompiles : Bool
  fragmentCompiles : Bool
  attachVertexErr : Bool
  attachFragmentErr : Bool
  linkOk : Bool
deriving DecidableEq, Repr

/-- shader_load_source (gles2.c lines 491-521): create a shader object,
compile; on compile failure the info log is printed, the shader object is
deleted and 0 is returned, otherwise the shader id. -/
def shader_load_source (compiles : Bool) (w : GLObjectWorld) :
    Nat × GLObjectWorld :=
  let r := glAlloc w
  if compiles then r else (0, glDeleteObject r.2 r.1)

/-- shader_delete (gles2.c lines 475-489): delete each of the vertex,
fragment and program objects that is nonzero and clear the field. -/
def shader_delete (sh : gl_shader_t) (w : GLObjectWorld) :
    gl_shader_t × GLObjectWorld :=
  let a := if sh.vertex ≠ 0 then
    ({ sh with vertex := 0 }, glDeleteObject w sh.vertex) else (sh, w)
  let b := if a.1.fragment ≠ 0 then
    ({ a.1 with fragment := 0 }, glDeleteObject a.2 a.1.fragment) else a
  if b.1.program ≠ 0 then
    ({ b.1 with program := 0 }, glDeleteObject b.2 b.1.program) else b

/-- shader_load (gles2.c lines 523-610): load the vertex shader, storing
the result id (possibly 0) in the record, and return -1 when it failed;
then the fragment shader the same way; 0 on success.  The shader source
text itself is modelled separately by fragment_deint below. -/
def shader_load (env : shader_env_t) (sh : gl_shader_t)
    (w : GLObjectWorld) : Int × gl_shader_t × GLObjectWorld :=
  let v := shader_load_source env.vertexCompiles w
  let sh1 := { sh with vertex := v.1 }
  if v.1 = 0 then (-1, sh1, v.2)
  else
    let f := shader_load_source env.fragmentCompiles v.2
    let sh2 := { sh1 with fragment := f.1 }
    if f.1 = 0 then (-1, sh2, f.2)
    else (0, sh2, f.2)

/-- shader_init (gles2.c lines 612-674): create the program object, load
both shaders, attach them, link.  Failures of create, load or attach take
the goto failure path through shader_delete and return -1.  A link
failure (lines 650-660) prints the log and deletes the program object but
does not jump to the failure path: control falls through to glUseProgram
and the attribute queries and the function returns 0. -/
def shader_init (env : shader_env_t) (sh : gl_shader_t)
    (w : GLObjectWorld) : Int × gl_shader_t × GLObjectWorld :=
  let pr := if env.createProgramOk then glAlloc w else (0, w)
  let sh1 := { sh with program := pr.1 }
  if pr.1 = 0 then (-1, sh1, pr.2)
  else
    let l := shader_load env sh1 pr.2
    if l.1 < 0 then
      let d := shader_delete l.2.1 l.2.2
      (-1, d.1, d.2)
    else if env.attachVertexErr then
      let d := shader_delete l.2.1 l.2.2
      (-1, d.1, d.2)
    else if env.attachFragmentErr then
      let d := shader_delete l.2.1 l.2.2
      (-1, d.1, d.2)
    else
      let w3 := if env.linkOk then l.2.2
        else glDeleteObject l.2.2 l.2.1.program
      (0, l.2.1, w3)

/-- C4: evaluation of shader_init at the link-failure driver outcome (the
program is created, both shaders compile and attach, GL_LINK_STATUS is
false).  The call returns 0, reporting success, while the vertex and
fragment shader objects (ids 2 and 3) are still live and the record still
holds the stale id of the deleted program: link failure neither tears down
the partially created objects nor reports failure, contradicting the
claimed invariant. -/
theorem C4_shader_init_link_failure_returns_success :
    (let env : shader_env_t := ⟨true, true, true, false, false, false⟩
     let r := shader_init env ⟨0, 0, 0, 0, 0⟩ ⟨1, []⟩
     r.1 = 0 ∧
     r.2.1.program = 1 ∧ r.2.1.vertex = 2 ∧ r.2.1.fragment = 3 ∧
     r.2.2.live = [2, 3] ∧ 1 ∉ r.2.2.live) := by
  decide

/-! ## Deinterlace fragment shader (gles2.c lines 545-588) and the
line-height uniform set by the render pass (gles2.c lines 766, 788-789)

The GLSL program is embedded over exact rationals: a sampler is a
function from a texture coordinate to the red channel sample, and the
GLSL literals become the equal rational literals. -/

/-- GLSL mix(x, y, a) = x * (1 - a) + y * a. -/
def glsl_mix (x y a : ℚ) : ℚ := x * (1 - a) + y * a

/-- Fragment shader fragment_deint (gles2.c lines 545-588), transcribed
statement by statement: Y samples at the coordinate and one line below, U
and V samples at the coordinate and two lines below, 0.5 mixes, the range
and color transform, and the (r, g, b, 1) output color. -/
def fragment_deint (s_ytex s_utex s_vtex : ℚ × ℚ → ℚ) (line_height : ℚ)
    (vTexcoord : ℚ × ℚ) : ℚ × ℚ × ℚ × ℚ :=
  let tmpcoord : ℚ × ℚ := (vTexcoord.1, vTexcoord.2 + line_height)
  let tmpcoord_2 : ℚ × ℚ := (vTexcoord.1, vTexcoord.2 + line_height * 2)
  let y1 := s_ytex vTexcoord
  let y2 := s_ytex tmpcoord
  let u1 := s_utex vTexcoord
  let u2 := s_utex tmpcoord_2
  let v1 := s_vtex vTexcoord
  let v2 := s_vtex tmpcoord_2
  let y := glsl_mix y1 y2 0.5
  let u := glsl_mix u1 u2 0.5
  let v := glsl_mix v1 v2 0.5
  let y2r := 1.1643 * (y - 0.0625)
  let u2r := u - 0.5
  let v2r := v - 0.5
  let r := y2r + 1.5958 * v2r
  let g := y2r - 0.39173 * u2r - 0.81290 * v2r
  let b := y2r + 2.017 * u2r
  (r, g, b, 1)

/-- Line-height uniform value set by
do_deinterlace_and_color_conversion: 1.0 / height with height the frame
height p->format.i_height (gles2.c lines 766, 789). -/
def do_deint_line_height (height : ℚ) : ℚ := 1 / height

/-- C5: with the line height the render pass sets (1 over the frame
height), the fragment computation equals the claimed form: Y blended at
weight 0.5 with the sample one row down, U and V blended at weight 0.5
with the samples two rows down, then exactly the BT.601 transform with
coefficients 1.1643, 0.0625, 1.5958, 0.39173, 0.81290 and 2.017, with
output alpha 1. -/
theorem C5_fragment_deint_bt601 (sY sU sV : ℚ × ℚ → ℚ) (height : ℚ)
    (coord : ℚ × ℚ) :
    fragment_deint sY sU sV (do_deint_line_height height) coord =
      (let lh := 1 / height
       let yb := 0.5 * sY coord + 0.5 * sY (coord.1, coord.2 + lh)
       let ub := 0.5 * sU coord + 0.5 * sU (coord.1, coord.2 + 2 * lh)
       let vb := 0.5 * sV coord + 0.5 * sV (coord.1, coord.2 + 2 * lh)
       let yp := 1.1643 * (yb - 0.0625)
       let up := ub - 0.5
       let vp := vb - 0.5
       (yp + 1.5958 * vp,
        yp - 0.39173 * up - 0.81290 * vp,
        yp + 2.017 * up,
        1)) := by
  simp only [fragment_deint, glsl_mix, do_deint_line_height]
  have hc : coord.2 + 1 / height * 2 = coord.2 + 2 * (1 / height) := by ring
  rw [hc]
  simp only [Prod.mk.injEq]
  refine ⟨by ring, by ring, by ring, trivial⟩
